import Mathlib

/-! Shallow embedding of the SQL-generation core of the `pg-helper` crate:
the dynamic value universe and the escaping codec of `src/types.rs`, the
column model of `src/column.rs`, the type-definition emitter of
`src/type_helpers.rs`, and the statement builders of `src/table.rs`.
Rust panics (`todo!`, `unimplemented!`, and a `format!` call whose
`Display` implementation returns `fmt::Error`) are modelled by the
`EvalRes.abort` outcome; `Option`-valued Rust functions return `Option`. -/

namespace PgHelper

/-- Outcome of running Rust code that may panic: a normal value, or an
aborted execution (`todo!`, `unimplemented!`, or a `format!` call whose
`Display` implementation returned an error, which panics the process). -/
inductive EvalRes (α : Type) where
  | ok (a : α)
  | abort
deriving DecidableEq

/-- The single-quote character, used by the codec to quote string-like
SQL literals. -/
def squote : String := String.singleton (Char.ofNat 39)

/-- String-like literals render single-quoted, as in `format ("'{}'", val)`. -/
def quoted (s : String) : String := squote ++ s ++ squote

/-- Separator-joined list of strings, as produced by the `itertools`
`join` helper and by the manual `Display` loops of `types.rs`. -/
def joinSep (sep : String) : List String → String
  | [] => ""
  | [x] => x
  | x :: xs => x ++ sep ++ joinSep sep xs

/-- Decimal digits of `n`, most significant first, prepended to `acc`.
The first argument is fuel; `n` itself is always enough fuel because the
loop divides by ten each step. -/
def natDecimalAux : Nat → Nat → List Char → List Char
  | 0, _, acc => acc
  | fuel + 1, n, acc =>
    if n = 0 then acc
    else natDecimalAux fuel (n / 10) (Nat.digitChar (n % 10) :: acc)

/-- Decimal rendering of a natural number, exactly as the Rust `Display`
implementation for unsigned integers prints it. -/
def natDecimal (n : Nat) : String :=
  if n = 0 then "0" else String.mk (natDecimalAux n n [])

/-- Rendering of a Rust signed integer (`i16` / `i32` / `i64`) through
`Display`: an optional minus sign followed by the decimal digits. -/
def intDisplay (i : Int) : String :=
  if i < 0 then "-" ++ natDecimal i.natAbs else natDecimal i.natAbs

/-- `Display` output of a Rust `bool`. -/
def fmtBool (b : Bool) : String := if b then "true" else "false"

/-- The displayed form of a Rust floating point number (`f32` / `f64`):
`Display` always prints either a possibly-signed decimal expansion,
`NaN`, `inf` or `-inf`, never scientific notation, so the payload of a
float value is modelled by this shape rather than by an opaque string. -/
inductive FloatLit where
  | finite (neg : Bool) (ip : Nat) (frac : List Nat)
  | nan
  | inf (neg : Bool)
deriving DecidableEq

/-- The fractional part of a displayed float: nothing, or a dot followed
by the fraction digits. -/
def fracPart (frac : List Nat) : String :=
  if frac.isEmpty then "" else "." ++ String.mk (frac.map Nat.digitChar)

/-- The string a `FloatLit` prints as. -/
def FloatLit.display : FloatLit → String
  | .nan => "NaN"
  | .inf false => "inf"
  | .inf true => "-inf"
  | .finite true ip frac => "-" ++ natDecimal ip ++ fracPart frac
  | .finite false ip frac => natDecimal ip ++ fracPart frac

section StringLemmas

theorem str_data_append (s t : String) : (s ++ t).data = s.data ++ t.data := by
  cases s; cases t; rfl

@[simp] theorem str_append_empty (s : String) : s ++ "" = s := by
  cases s
  show String.mk _ = _
  simp [String.append]

@[simp] theorem str_empty_append (s : String) : "" ++ s = s := by
  cases s; rfl

theorem str_append_assoc (a b c : String) : a ++ b ++ c = a ++ (b ++ c) := by
  cases a; cases b; cases c
  show String.mk _ = String.mk _
  simp [String.append]

theorem digitChar_isDigit (m : Nat) (h : m < 10) : (Nat.digitChar m).isDigit = true := by
  interval_cases m <;> decide

theorem natDecimalAux_digits (fuel : Nat) :
    ∀ n acc, (∀ c ∈ acc, c.isDigit = true) →
      ∀ c ∈ natDecimalAux fuel n acc, c.isDigit = true := by
  induction fuel with
  | zero => intro n acc hacc c hc; exact hacc c hc
  | succ fuel ih =>
    intro n acc hacc c hc
    rw [natDecimalAux] at hc
    split at hc
    · exact hacc c hc
    · refine ih (n / 10) _ ?_ c hc
      intro d hd
      rcases List.mem_cons.mp hd with h | h
      · subst h; exact digitChar_isDigit _ (Nat.mod_lt _ (by decide))
      · exact hacc d h

theorem natDecimalAux_ne_nil (fuel : Nat) :
    ∀ n acc, acc ≠ [] → natDecimalAux fuel n acc ≠ [] := by
  induction fuel with
  | zero => intro n acc hacc; simpa [natDecimalAux] using hacc
  | succ fuel ih =>
    intro n acc hacc
    rw [natDecimalAux]
    split
    · exact hacc
    · exact ih (n / 10) _ (by simp)

theorem natDecimal_digits (n : Nat) : ∀ c ∈ (natDecimal n).data, c.isDigit = true := by
  unfold natDecimal
  split
  · intro c hc
    rw [show ("0" : String).data = [Char.ofNat 48] from rfl] at hc
    rcases List.mem_singleton.mp hc with rfl
    decide
  · exact natDecimalAux_digits n n [] (by simp)

theorem natDecimal_ne_nil (n : Nat) : (natDecimal n).data ≠ [] := by
  unfold natDecimal
  split
  · decide
  · rename_i hn
    obtain ⟨f, rfl⟩ := Nat.exists_eq_succ_of_ne_zero hn
    show natDecimalAux (f + 1) (f + 1) [] ≠ []
    rw [natDecimalAux]
    split
    · simp_all
    · exact natDecimalAux_ne_nil f _ _ (by simp)

theorem digits_ne_NULL (s : String) (h : ∀ c ∈ s.data, c.isDigit = true) : s ≠ "NULL" := by
  intro he
  subst he
  exact absurd (h (Char.ofNat 78) (by decide)) (by decide)

theorem head_ne_NULL (s : String) (c : Char) (h : s.data.head? = some c)
    (hc : c ≠ Char.ofNat 78) : s ≠ "NULL" := by
  intro he
  subst he
  rw [show ("NULL" : String).data.head? = some (Char.ofNat 78) from by decide] at h
  exact hc (by injection h with h2; exact h2.symm)

@[simp] theorem natDecimal_ne_NULL (n : Nat) : natDecimal n ≠ "NULL" :=
  digits_ne_NULL _ (natDecimal_digits n)

theorem dash_append_ne_NULL (t : String) : "-" ++ t ≠ "NULL" := by
  have hh : (("-" : String) ++ t).data.head? = some (Char.ofNat 45) := by cases t; rfl
  exact head_ne_NULL _ (Char.ofNat 45) hh (by decide)

@[simp] theorem intDisplay_ne_NULL (i : Int) : intDisplay i ≠ "NULL" := by
  unfold intDisplay
  split
  · exact dash_append_ne_NULL _
  · exact natDecimal_ne_NULL _

theorem digits_append_ne_NULL (a b : String) (ha : ∀ c ∈ a.data, c.isDigit = true)
    (hne : a.data ≠ []) : a ++ b ≠ "NULL" := by
  obtain ⟨c, cs, hcons⟩ := List.exists_cons_of_ne_nil hne
  refine head_ne_NULL _ c ?_ ?_
  · rw [str_data_append, hcons]; rfl
  · intro he
    have := ha c (by rw [hcons]; exact List.mem_cons_self _ _)
    rw [he] at this
    exact absurd this (by decide)

@[simp] theorem floatLit_display_ne_NULL (x : FloatLit) : x.display ≠ "NULL" := by
  cases x with
  | nan => decide
  | inf neg => cases neg <;> decide
  | finite neg ip frac =>
    cases neg with
    | true =>
      show "-" ++ natDecimal ip ++ fracPart frac ≠ "NULL"
      rw [str_append_assoc]
      exact dash_append_ne_NULL _
    | false =>
      exact digits_append_ne_NULL _ _ (natDecimal_digits ip) (natDecimal_ne_nil ip)

@[simp] theorem quoted_ne_NULL (s : String) : quoted s ≠ "NULL" := by
  refine head_ne_NULL _ (Char.ofNat 39) ?_ (by decide)
  show ((squote ++ s) ++ squote).data.head? = _
  rw [str_data_append, str_data_append]
  rfl

@[simp] theorem fmtBool_ne_NULL (b : Bool) : fmtBool b ≠ "NULL" := by
  cases b <;> decide

end StringLemmas

/-- The host (Rust) type tag carried by a `Nullable<T>` or `Vec<T>` value;
`downcast_ref` succeeds only when the tag matches the requested type. -/
inductive HostKind where
  | bool
  | i16
  | i32
  | i64
  | uuid
  | float32
  | float64
  | char
  | string
  | tuple
  | vec (k : HostKind)
deriving DecidableEq

/-- The universe of runtime values handed to the codec as `&dyn Any`
(`src/types.rs`). A `uuid::Uuid` is carried as its hyphenated textual
form, which is all its `Display` implementation exposes; floats carry
their `Display` shape (`FloatLit`); `vTuple` is the tuple payload that a
`StructType` implementation decomposes; `vList` is a `Vec<T>` with its
element-type tag; `vNullable` is a `Nullable<T>` or `Option<T>` with its
payload-type tag. -/
inductive Value where
  | vBool (b : Bool)
  | vI16 (n : Int)
  | vI32 (n : Int)
  | vI64 (n : Int)
  | vUuid (s : String)
  | vFloat (x : FloatLit)
  | vDouble (x : FloatLit)
  | vChar (c : Char)
  | vString (s : String)
  | vTuple (vs : List Value)
  | vList (k : HostKind) (vs : List Value)
  | vNullable (k : HostKind) (inner : Option Value)

/-- `val.downcast_ref::<bool>()`. -/
def dBool : Value → Option Bool
  | .vBool b => some b
  | _ => none

/-- `val.downcast_ref::<i16>()`. -/
def dI16 : Value → Option Int
  | .vI16 n => some n
  | _ => none

/-- `val.downcast_ref::<i32>()`. -/
def dI32 : Value → Option Int
  | .vI32 n => some n
  | _ => none

/-- `val.downcast_ref::<i64>()`. -/
def dI64 : Value → Option Int
  | .vI64 n => some n
  | _ => none

/-- `val.downcast_ref::<uuid::Uuid>()`, yielding the displayed form. -/
def dUuid : Value → Option String
  | .vUuid s => some s
  | _ => none

/-- `val.downcast_ref::<f32>()`, yielding the displayed form. -/
def dFloat : Value → Option FloatLit
  | .vFloat x => some x
  | _ => none

/-- `val.downcast_ref::<f64>()`, yielding the displayed form. -/
def dDouble : Value → Option FloatLit
  | .vDouble x => some x
  | _ => none

/-- `val.downcast_ref::<char>()`. -/
def dChar : Value → Option Char
  | .vChar c => some c
  | _ => none

/-- `val.downcast_ref::<String>()`. -/
def dString : Value → Option String
  | .vString s => some s
  | _ => none

/-- `val.downcast_ref::<Nullable<T>>()` for the host type tagged `k`,
whose payload is extracted by `d`: the tag must match, and a present
payload must itself downcast (in Rust the payload of a `Nullable<T>`
necessarily has type `T`). -/
def dNul (k : HostKind) (d : Value → Option α) : Value → Option (Option α)
  | .vNullable k2 none => if k2 = k then some none else none
  | .vNullable k2 (some w) => if k2 = k then (d w).map some else none
  | _ => none

/-- `val.downcast_ref::<Vec<T>>()` for the host element type tagged `k`. -/
def dVec (k : HostKind) : Value → Option (List Value)
  | .vList k2 vs => if k2 = k then some vs else none
  | _ => none

/-- `val.downcast_ref::<Nullable<Vec<T>>>()` for the element tag `k`. -/
def dNulVec (k : HostKind) : Value → Option (Option (List Value))
  | .vNullable (.vec k2) none => if k2 = k then some none else none
  | .vNullable (.vec k2) (some w) => if k2 = k then (dVec k w).map some else none
  | _ => none

/-- The most common Postgres data types (`src/types.rs`, enum `DbType`).
A `CustomStruct` carries the `StructType` trait object's observable data:
its `name()` and its `fields()` list. The source's `String` variant is
spelled `Str` because `String` is taken in Lean. -/
inductive DbType where
  | Boolean
  | Int16
  | Int32
  | Int64
  | Uuid
  | Float
  | Double
  | Date
  | Json
  | Char (size : Option Nat)
  | VarChar (size : Option Nat)
  | Str
  | CustomStruct (name : String) (fields : List (String × DbType))
  | Array (elem : DbType)

/-- `StructType::as_vec` for the composite trait implementations in the
repository: the value must downcast to the struct's tuple form, whose
components become the field values (for example `(i16, i16)` for the
`point2d` type of the tests). -/
def structAsVec : Value → Option (List Value)
  | .vTuple vs => some vs
  | _ => none

/-- `StructType::as_nullable_vec`: the value must downcast to
`Option<Tuple>`; a present payload is decomposed with `as_vec`, and a
failed inner decomposition is treated as an absent value (the
`value.and_then(|val| self.as_vec(&val))` of the test implementations). -/
def structAsNullableVec : Value → Option (Option (List Value))
  | .vNullable .tuple none => some none
  | .vNullable .tuple (some w) => some (structAsVec w)
  | _ => none

/-- `DbType::as_vec` (`src/types.rs`): element-type-directed downcast of a
`Vec`; `Date` and `Json` hit `todo!()`, `CustomStruct` hits `todo!()`
and a nested `Array` hits `unimplemented!()`, all of which abort. -/
def dbAsVec : DbType → Value → EvalRes (Option (List Value))
  | .Boolean, v => .ok (dVec .bool v)
  | .Int16, v => .ok (dVec .i16 v)
  | .Int32, v => .ok (dVec .i32 v)
  | .Int64, v => .ok (dVec .i64 v)
  | .Uuid, v => .ok (dVec .uuid v)
  | .Float, v => .ok (dVec .float32 v)
  | .Double, v => .ok (dVec .float64 v)
  | .Date, _ => .abort
  | .Json, _ => .abort
  | .Char sz, v =>
    if sz.getD 1 = 1 then
      match dVec .char v with
      | some vs => .ok (some vs)
      | none => .ok (dVec .string v)
    else .ok (dVec .string v)
  | .VarChar _, v => .ok (dVec .string v)
  | .Str, v => .ok (dVec .string v)
  | .CustomStruct _ _, _ => .abort
  | .Array _, _ => .abort

/-- `DbType::as_nullable_vec` (`src/types.rs`): same shape as `as_vec`
over `Nullable<Vec<T>>`. -/
def dbAsNullableVec : DbType → Value → EvalRes (Option (Option (List Value)))
  | .Boolean, v => .ok (dNulVec .bool v)
  | .Int16, v => .ok (dNulVec .i16 v)
  | .Int32, v => .ok (dNulVec .i32 v)
  | .Int64, v => .ok (dNulVec .i64 v)
  | .Uuid, v => .ok (dNulVec .uuid v)
  | .Float, v => .ok (dNulVec .float32 v)
  | .Double, v => .ok (dNulVec .float64 v)
  | .Date, _ => .abort
  | .Json, _ => .abort
  | .Char sz, v =>
    if sz.getD 1 = 1 then
      match dNulVec .char v with
      | some vs => .ok (some vs)
      | none => .ok (dNulVec .string v)
    else .ok (dNulVec .string v)
  | .VarChar _, v => .ok (dNulVec .string v)
  | .Str, v => .ok (dNulVec .string v)
  | .CustomStruct _ _, _ => .abort
  | .Array _, _ => .abort

/-- Sequences the element escapes of a `CommaSeparatedVec` as consumed by
`format!`: an element whose escape fails produces a `fmt::Error`, which
the enclosing `format!` call turns into a panic, so both a failed and an
aborted element escape abort the whole rendering. -/
def seqAbort : List (EvalRes (Option String)) → EvalRes (List String)
  | [] => .ok []
  | .abort :: _ => .abort
  | .ok none :: _ => .abort
  | .ok (some s) :: rest =>
    match seqAbort rest with
    | .abort => .abort
    | .ok l => .ok (s :: l)

mutual

/-- `DbType::escape_val` (`src/types.rs`, lines 112-183): downcast the
value against the expected host representation of the type and render the
literal. `Date` and `Json` hit `todo!()` (abort); a `CustomStruct` whose
value decomposes renders `ROW(..)::name` through `format!`, so a failing
field escape aborts; an `Array` renders `{..}` the same way. -/
def escapeVal : DbType → Value → EvalRes (Option String)
  | .Boolean, v => .ok ((dBool v).map fmtBool)
  | .Int16, v => .ok ((dI16 v).map intDisplay)
  | .Int32, v => .ok ((dI32 v).map intDisplay)
  | .Int64, v => .ok ((dI64 v).map intDisplay)
  | .Uuid, v => .ok ((dUuid v).map quoted)
  | .Float, v => .ok ((dFloat v).map FloatLit.display)
  | .Double, v => .ok ((dDouble v).map FloatLit.display)
  | .Date, _ => .abort
  | .Json, _ => .abort
  | .Char sz, v =>
    match (if sz.getD 1 = 1 then dChar v else none) with
    | some c => .ok (some (quoted (String.singleton c)))
    | none =>
      .ok ((dString v).bind fun s =>
        if sz.getD 1 < s.utf8ByteSize then none else some (quoted s))
  | .VarChar sz, v =>
    .ok ((dString v).bind fun s =>
      match sz with
      | some n => if n < s.utf8ByteSize then none else some (quoted s)
      | none => some (quoted s))
  | .Str, v => .ok ((dString v).map quoted)
  | .CustomStruct n fs, v =>
    match structAsVec v with
    | none => .ok none
    | some vs =>
      match escapeFields fs vs with
      | .abort => .abort
      | .ok items => .ok (some ("ROW(" ++ joinSep ", " items ++ ")::" ++ n))
  | .Array elem, v =>
    match dbAsVec elem v with
    | .abort => .abort
    | .ok none => .ok none
    | .ok (some vs) =>
      match seqAbort (vs.map fun w => escapeVal elem w) with
      | .abort => .abort
      | .ok items => .ok (some ("\x7b" ++ joinSep ", " items ++ "\x7d"))

/-- The `CommaSeparatedValues` rendering of a composite's decomposed
field values: each value is escaped against its field's type (the zip of
`fields` and `values` of `_csv_from_vals`, truncating at the shorter
list); a failed escape is a `fmt::Error` that the enclosing `format!`
call turns into a panic. -/
def escapeFields : List (String × DbType) → List Value → EvalRes (List String)
  | [], _ => .ok []
  | _ :: _, [] => .ok []
  | ⟨_, t⟩ :: fs, v :: vs =>
    match escapeVal t v with
    | .abort => .abort
    | .ok none => .abort
    | .ok (some s) =>
      match escapeFields fs vs with
      | .abort => .abort
      | .ok rest => .ok (s :: rest)

end

/-- `format_opt` composed with the scalar `format` arms: a present value
renders through `f`, an absent one renders as the literal `NULL`. -/
def fmtOpt (f : α → String) : Option α → String
  | some x => f x
  | none => "NULL"

/-- The second phase of `DbType::escape_nullable_val` (`src/types.rs`,
lines 190-261), reached when the plain `escape_val` attempt returned
`None`: re-interpret the value as `Nullable<T>` and render through
`format_opt`. `Date` and `Json` hit `todo!()`. -/
def nullableSecond : DbType → Value → EvalRes (Option String)
  | .Boolean, v => .ok ((dNul .bool dBool v).map (fmtOpt fmtBool))
  | .Int16, v => .ok ((dNul .i16 dI16 v).map (fmtOpt intDisplay))
  | .Int32, v => .ok ((dNul .i32 dI32 v).map (fmtOpt intDisplay))
  | .Int64, v => .ok ((dNul .i64 dI64 v).map (fmtOpt intDisplay))
  | .Uuid, v => .ok ((dNul .uuid dUuid v).map (fmtOpt quoted))
  | .Float, v => .ok ((dNul .float32 dFloat v).map (fmtOpt FloatLit.display))
  | .Double, v => .ok ((dNul .float64 dDouble v).map (fmtOpt FloatLit.display))
  | .Date, _ => .abort
  | .Json, _ => .abort
  | .Char sz, v =>
    match (if sz.getD 1 = 1 then dNul .char dChar v else none) with
    | some oc => .ok (some (fmtOpt (fun c => quoted (String.singleton c)) oc))
    | none =>
      .ok ((dNul .string dString v).bind fun os =>
        if sz.getD 1 < ((os.map String.utf8ByteSize).getD 0) then none
        else some (fmtOpt quoted os))
  | .VarChar sz, v =>
    .ok ((dNul .string dString v).bind fun os =>
      match sz with
      | some n =>
        if n < ((os.map String.utf8ByteSize).getD 0) then none
        else some (fmtOpt quoted os)
      | none => some (fmtOpt quoted os))
  | .Str, v => .ok ((dNul .string dString v).map (fmtOpt quoted))
  | .CustomStruct n fs, v =>
    match structAsNullableVec v with
    | none => .ok none
    | some none => .ok (some "NULL")
    | some (some vs) =>
      match escapeFields fs vs with
      | .abort => .abort
      | .ok items => .ok (some ("ROW(" ++ joinSep ", " items ++ ")::" ++ n))
  | .Array elem, v =>
    match dbAsNullableVec elem v with
    | .abort => .abort
    | .ok none => .ok none
    | .ok (some none) => .ok (some "NULL")
    | .ok (some (some vs)) =>
      match seqAbort (vs.map fun w => escapeVal elem w) with
      | .abort => .abort
      | .ok items => .ok (some ("\x7b" ++ joinSep ", " items ++ "\x7d"))

/-- `DbType::escape_nullable_val` (`src/types.rs`, lines 185-262): try the
non-null escape first; when it reports a mismatch, fall back to the
nullable interpretation. -/
def escapeNullable (t : DbType) (v : Value) : EvalRes (Option String) :=
  match escapeVal t v with
  | .abort => .abort
  | .ok (some s) => .ok (some s)
  | .ok none => nullableSecond t v

/-- `Display` for `DbType` (`src/types.rs`, lines 476-511). -/
def DbType.display : DbType → String
  | .Boolean => "boolean"
  | .Int16 => "smallint"
  | .Int32 => "integer"
  | .Int64 => "bigint"
  | .Uuid => "uuid"
  | .Float => "real"
  | .Double => "double precision"
  | .Date => "date"
  | .Json => "json"
  | .Char none => "char"
  | .Char (some n) => "char(" ++ natDecimal n ++ ")"
  | .VarChar none => "varchar"
  | .VarChar (some n) => "varchar(" ++ natDecimal n ++ ")"
  | .Str => "text"
  | .CustomStruct n _ => n
  | .Array t => DbType.display t ++ " ARRAY"

/-- A type is scalar when it is not a composite and not an array (the
spec's `Scalar(kind)` nodes, which include `Date` and `Json`). -/
def DbType.isScalar : DbType → Bool
  | .CustomStruct _ _ => false
  | .Array _ => false
  | _ => true

/-- A value is absent when it is a typed `Nullable::Null`. -/
def Value.isAbsent : Value → Bool
  | .vNullable _ none => true
  | _ => false

/-- The host tag of the `Nullable` representation a scalar type inspects
in its second-chance branch (`Nullable<String>` serves every character
kind, including `Char`, whose `Nullable<char>` probe only fires for the
`char` tag). -/
def scalarHost : DbType → HostKind
  | .Boolean => .bool
  | .Int16 => .i16
  | .Int32 => .i32
  | .Int64 => .i64
  | .Uuid => .uuid
  | .Float => .float32
  | .Double => .float64
  | _ => .string

/-- A `postgres_types::Type` as used by `src/type_helpers.rs` and
`src/column.rs`: a name together with its `Kind`, flattened into one
inductive (`Simple`, `Pseudo`, `Array`, `Range`, `Domain`, `Enum`,
`Composite` are the kinds `ObjectAndCreateSql::from_type` handles). The
`Display` of such a type with the default `public` schema is its name. -/
inductive PgType where
  | simple (name : String)
  | pseudo (name : String)
  | array (name : String) (inner : PgType)
  | range (name : String) (inner : PgType)
  | domain (name : String) (inner : PgType)
  | enumT (name : String) (labels : List String)
  | composite (name : String) (fields : List (String × PgType))

/-- `Type::name()`. -/
def PgType.name : PgType → String
  | .simple n => n
  | .pseudo n => n
  | .array n _ => n
  | .range n _ => n
  | .domain n _ => n
  | .enumT n _ => n
  | .composite n _ => n

/-- A named create statement (`src/type_helpers.rs`,
struct `ObjectAndCreateSql`). -/
structure ObjectAndCreateSql where
  name : String
  createSql : String
deriving DecidableEq

/-- The `CREATE DOMAIN` entry pushed for a domain type. -/
def domainDef (n : String) (inner : PgType) : ObjectAndCreateSql :=
  ⟨n, "CREATE DOMAIN \"" ++ n ++ "\" AS " ++ inner.name⟩

/-- The `CREATE TYPE .. AS ENUM` entry pushed for an enum type. -/
def enumDef (n : String) (labels : List String) : ObjectAndCreateSql :=
  ⟨n, "CREATE TYPE \"" ++ n ++ "\" AS ENUM (" ++ joinSep ", " (labels.map quoted) ++ ")"⟩

/-- The `CREATE TYPE .. AS (..)` entry pushed for a composite type. -/
def compositeDef (n : String) (fields : List (String × PgType)) : ObjectAndCreateSql :=
  ⟨n, "CREATE TYPE " ++ n ++ " AS (" ++
    joinSep ", " (fields.map fun f => f.1 ++ " " ++ f.2.name) ++ ")"⟩

mutual

/-- `ObjectAndCreateSql::from_type` (`src/type_helpers.rs`, lines 20-63):
collect the create statements for every non-standard type referenced by
`ty`, dependencies first; simple and pseudo kinds contribute nothing,
array and range kinds defer to their inner type, and domain, enum and
composite kinds push their own definition last. -/
def fromType : PgType → List ObjectAndCreateSql
  | .simple _ => []
  | .pseudo _ => []
  | .array _ inner => fromType inner
  | .range _ inner => fromType inner
  | .domain n inner => fromType inner ++ [domainDef n inner]
  | .enumT n labels => [enumDef n labels]
  | .composite n fields => fromFields fields ++ [compositeDef n fields]

/-- The `flat_map` over a composite's fields in `from_type`. -/
def fromFields : List (String × PgType) → List ObjectAndCreateSql
  | [] => []
  | ⟨_, t⟩ :: rest => fromType t ++ fromFields rest

end

/-- Occurrence of a type node somewhere inside another: at the root, or
under an array, range or domain wrapper, or as (part of) the type of a
composite's field. -/
inductive OccursIn : PgType → PgType → Prop where
  | refl (t : PgType) : OccursIn t t
  | array (c : PgType) (n : String) (inner : PgType) (h : OccursIn c inner) :
      OccursIn c (.array n inner)
  | range (c : PgType) (n : String) (inner : PgType) (h : OccursIn c inner) :
      OccursIn c (.range n inner)
  | domain (c : PgType) (n : String) (inner : PgType) (h : OccursIn c inner) :
      OccursIn c (.domain n inner)
  | composite (c : PgType) (n : String) (fields : List (String × PgType))
      (fn : String) (fty : PgType) (hf : (fn, fty) ∈ fields) (h : OccursIn c fty) :
      OccursIn c (.composite n fields)

/-- The index method of `src/column.rs`. -/
inductive IndexMethod where
  | bTree
  | hash
deriving DecidableEq

/-- `Column` of `src/column.rs` (the `postgres_types`-based generation):
a name bound to a type plus the modifier flags. -/
structure PgColumn where
  name : String
  dbType : PgType
  nullable : Bool
  unique : Bool
  primaryKey : Bool
  foreignKey : Option (String × String)
  index : Option IndexMethod

/-- `ColumnBuilder` of `src/column.rs` (same fields as `Column`). -/
structure PgColumnBuilder where
  name : String
  dbType : PgType
  nullable : Bool
  unique : Bool
  primaryKey : Bool
  foreignKey : Option (String × String)
  index : Option IndexMethod

namespace PgColumnBuilder

/-- `ColumnBuilder::new`: every modifier starts out unset. -/
def new (name : String) (dbType : PgType) : PgColumnBuilder :=
  ⟨name, dbType, false, false, false, none, none⟩

/-- `ColumnBuilder::nullable` (the builder methods carry the spec's
`with..` names because the Lean projections already use the field
names). -/
def withNullable (b : PgColumnBuilder) : PgColumnBuilder := { b with nullable := true }

/-- `ColumnBuilder::unique`. -/
def withUnique (b : PgColumnBuilder) : PgColumnBuilder := { b with unique := true }

/-- `ColumnBuilder::primary_key`: sets `primary_key` and also `unique`. -/
def withPrimaryKey (b : PgColumnBuilder) : PgColumnBuilder :=
  { b with primaryKey := true, unique := true }

/-- `ColumnBuilder::foreign_key`. -/
def withForeignKey (b : PgColumnBuilder) (table column : String) : PgColumnBuilder :=
  { b with foreignKey := some (table, column) }

/-- `ColumnBuilder::finish`. -/
def finish (b : PgColumnBuilder) : PgColumn :=
  ⟨b.name, b.dbType, b.nullable, b.unique, b.primaryKey, b.foreignKey, b.index⟩

end PgColumnBuilder

/-- `Column::is_nullable` (`src/column.rs`, lines 122-124). -/
def PgColumn.isNullable (c : PgColumn) : Bool := c.nullable

/-- `Column::is_unique` (`src/column.rs`, lines 126-128). The source body
returns `self.nullable`, not `self.unique`. -/
def PgColumn.isUnique (c : PgColumn) : Bool := c.nullable

/-- `Column::is_primary_key` (`src/column.rs`, lines 130-132). -/
def PgColumn.isPrimaryKey (c : PgColumn) : Bool := c.primaryKey

/-- `Display` for `Column` (`src/column.rs`, lines 143-165). -/
def PgColumn.display (c : PgColumn) : String :=
  let nullable := if c.nullable then " NULL" else " NOT NULL"
  let unique := if c.unique then " UNIQUE" else ""
  let primaryKey := if c.primaryKey then " PRIMARY KEY" else ""
  let foreignKey :=
    match c.foreignKey with
    | some (t, col) => " REFERENCES " ++ t ++ "(" ++ col ++ ")"
    | none => ""
  let typeDesc :=
    match c.dbType with
    | .array _ inner => inner.name ++ "[]"
    | t => t.name
  c.name ++ " " ++ typeDesc ++ nullable ++ unique ++ primaryKey ++ foreignKey

/-- `CheckConstraint` of `src/constraint.rs`. -/
structure CheckConstraint where
  name : String
  condition : String

/-- Modelled from the spec: the `Display` implementation for
`CheckConstraint` that `Table::create_table_sql` maps over is not among
the sources (only the `Constraint` trait with
`as_sql = CONSTRAINT <name> <body>` and the check body
`CHECK (<condition>)` is); the spec renders a check constraint as
`CONSTRAINT <name> CHECK (<condition>)`. -/
def CheckConstraint.display (c : CheckConstraint) : String :=
  "CONSTRAINT " ++ c.name ++ " CHECK (" ++ c.condition ++ ")"

/-- `Table::create_table_sql` (`src/table.rs`, lines 31-44): join the
column renderings, append the joined constraints only when their joined
rendering is non-empty, and wrap in `CREATE TABLE IF NOT EXISTS`. -/
def createTableSql (name : String) (cols : List PgColumn) (cons : List CheckConstraint) : String :=
  let columns := joinSep ", " (cols.map PgColumn.display)
  let constraints := joinSep "," (cons.map CheckConstraint.display)
  let sql := if constraints = "" then columns else columns ++ ", " ++ constraints
  "CREATE TABLE IF NOT EXISTS " ++ name ++ " (" ++ sql ++ ");"

/-- A column of the `types.rs`-based table generation (`src/table.rs`):
name, `DbType` and nullability. -/
structure OldColumn where
  name : String
  dbType : DbType
  nullable : Bool

/-- The per-column escape failure carried by `column::Error`: per the
spec it reports the offending column name and the declared type string. -/
structure EscapeError where
  column : String
  declaredType : String
deriving DecidableEq

/-- Modelled from the spec: `Column::escape_val` as called by
`Table::insert_values_row` is not among the sources (`src/column.rs` is
the `postgres_types`-based generation without it). Per the spec the codec
attempts the non-null representation first and falls back to the nullable
interpretation — the second-chance path of `escape_nullable_val` — and a
failure reports the column name and the declared type. -/
def OldColumn.escape (c : OldColumn) (v : Value) : EvalRes (Except EscapeError String) :=
  match escapeNullable c.dbType v with
  | .abort => .abort
  | .ok (some s) => .ok (.ok s)
  | .ok none => .ok (.error ⟨c.name, c.dbType.display⟩)

/-- The `collect::<Result<Vec<_>, _>>()` over the zipped columns and
values of `Table::insert_values_row`: evaluation stops at the first
failing column. -/
def collectRow : List OldColumn → List Value → EvalRes (Except EscapeError (List String))
  | [], _ => .ok (.ok [])
  | _ :: _, [] => .ok (.ok [])
  | c :: cs, v :: vs =>
    match c.escape v with
    | .abort => .abort
    | .ok (.error e) => .ok (.error e)
    | .ok (.ok s) =>
      match collectRow cs vs with
      | .abort => .abort
      | .ok (.error e) => .ok (.error e)
      | .ok (.ok rest) => .ok (.ok (s :: rest))

/-- `Table::insert_values_row` (`src/table.rs`, lines 52-63). -/
def insertValuesRow (cols : List OldColumn) (vals : List Value) :
    EvalRes (Except EscapeError String) :=
  match collectRow cols vals with
  | .abort => .abort
  | .ok (.error e) => .ok (.error e)
  | .ok (.ok parts) => .ok (.ok (joinSep ", " parts))

/-- A table of the `types.rs`-based generation: a name and its columns
(`Table::name` and `Table::columns`); a row of values is a list aligned
with the columns. -/
structure OldTable where
  name : String
  columns : List OldColumn

/-- The `collect::<Result<Vec<_>, _>>()` over the rows of
`Table::insert_many_sql`, each row rendered as `(<values>)`. -/
def collectRows (cols : List OldColumn) : List (List Value) → EvalRes (Except EscapeError (List String))
  | [] => .ok (.ok [])
  | r :: rs =>
    match insertValuesRow cols r with
    | .abort => .abort
    | .ok (.error e) => .ok (.error e)
    | .ok (.ok s) =>
      match collectRows cols rs with
      | .abort => .abort
      | .ok (.error e) => .ok (.error e)
      | .ok (.ok rest) => .ok (.ok (("(" ++ s ++ ")") :: rest))

/-- `Table::insert_many_sql` (`src/table.rs`, lines 77-95): render every
row, join the parenthesised row groups with `, ` and splice them into
`INSERT INTO <name> (<column names>) VALUES <groups>;`. -/
def insertManySql (t : OldTable) (rows : List (List Value)) :
    EvalRes (Except EscapeError String) :=
  match collectRows t.columns rows with
  | .abort => .abort
  | .ok (.error e) => .ok (.error e)
  | .ok (.ok rowGroups) =>
    .ok (.ok ("INSERT INTO " ++ t.name ++ " (" ++
      joinSep ", " (t.columns.map OldColumn.name) ++ ") VALUES " ++
      joinSep ", " rowGroups ++ ";"))

/-! Fixtures taken from the repository's tests: the `point2d` composite
type (over `int2` fields), a composite referencing it twice, and the
`buys` table. -/

/-- The standard `int2` type. -/
def int2Pg : PgType := .simple "int2"

/-- The fields of the `point2d` composite type of the tests. -/
def point2dFieldsPg : List (String × PgType) := [("x", int2Pg), ("y", int2Pg)]

/-- The `point2d` composite type of the tests. -/
def point2dPg : PgType := .composite "point2d" point2dFieldsPg

/-- A composite type with two fields of the same composite type. -/
def pairPg : PgType := .composite "pair" [("a", point2dPg), ("b", point2dPg)]

/-- The columns of the `buys` table of the `table.rs` tests. -/
def buysOld : OldTable :=
  ⟨"buys",
   [⟨"buy_id", .Uuid, false⟩,
    ⟨"customer_id", .Uuid, false⟩,
    ⟨"has_discount", .Boolean, true⟩,
    ⟨"total_price", .Float, true⟩,
    ⟨"details", .VarChar none, true⟩]⟩

section EmitterLemmas

theorem fromFields_append (xs ys : List (String × PgType)) :
    fromFields (xs ++ ys) = fromFields xs ++ fromFields ys := by
  induction xs with
  | nil => rfl
  | cons x xs ih => cases x; simp [fromFields, ih]

theorem occursIn_decomp {c t : PgType} (h : OccursIn c t) :
    ∃ pre post, fromType t = pre ++ fromType c ++ post := by
  induction h with
  | refl => exact ⟨[], [], by simp⟩
  | array n inner h ih =>
    obtain ⟨pre, post, heq⟩ := ih
    exact ⟨pre, post, by simpa [fromType] using heq⟩
  | range n inner h ih =>
    obtain ⟨pre, post, heq⟩ := ih
    exact ⟨pre, post, by simpa [fromType] using heq⟩
  | domain n inner h ih =>
    obtain ⟨pre, post, heq⟩ := ih
    exact ⟨pre, post ++ [domainDef n inner], by simp [fromType, heq, List.append_assoc]⟩
  | composite n fields fn fty hf h ih =>
    obtain ⟨pre, post, heq⟩ := ih
    obtain ⟨l1, l2, rfl⟩ := List.append_of_mem hf
    refine ⟨fromFields l1 ++ pre,
      post ++ fromFields l2 ++ [compositeDef n (l1 ++ (fn, fty) :: l2)], ?_⟩
    simp [fromType, fromFields_append, fromFields, heq, List.append_assoc]

end EmitterLemmas

/-- C1: amended. For the type-definition emitter `from_type`: whenever a
composite type occurs anywhere inside `t`, the output of `from_type t`
contains, contiguously, the definitions emitted for that composite's
field types (in field order) followed immediately by the composite's own
`CREATE TYPE` entry — so every field type's definitions appear strictly
before the composite's own entry; simple (and pseudo) types contribute no
entries, and an array contributes exactly the entries of its inner type.
The claim's no-duplicate part does not hold of `from_type` (see the
counterexample); deduplication is performed by the table-level collector,
not by the emitter. -/
theorem claim_C1_amended :
    (∀ (t : PgType) (cn : String) (cfs : List (String × PgType)),
      OccursIn (.composite cn cfs) t →
      ∃ pre post, fromType t = pre ++ fromFields cfs ++ compositeDef cn cfs :: post) ∧
    (∀ n, fromType (.simple n) = []) ∧
    (∀ n, fromType (.pseudo n) = []) ∧
    (∀ n inner, fromType (.array n inner) = fromType inner) := by
  refine ⟨?_, fun n => rfl, fun n => rfl, fun n inner => rfl⟩
  intro t cn cfs h
  obtain ⟨pre, post, heq⟩ := occursIn_decomp h
  refine ⟨pre, post, ?_⟩
  simpa [fromType, List.append_assoc] using heq

/-- C1: witness for the amended theorem, at the `pair` composite whose
first field has type `point2d`. -/
theorem claim_C1_witness :
    OccursIn (.composite "point2d" point2dFieldsPg) pairPg ∧
    (∃ pre post, fromType pairPg =
      pre ++ fromFields point2dFieldsPg ++ compositeDef "point2d" point2dFieldsPg :: post) := by
  have hocc : OccursIn (.composite "point2d" point2dFieldsPg) pairPg :=
    OccursIn.composite _ "pair" _ "a" point2dPg (List.mem_cons_self _ _) (OccursIn.refl _)
  exact ⟨hocc, claim_C1_amended.1 pairPg "point2d" point2dFieldsPg hocc⟩

/-- C1: counterexample to the claim as stated. A composite type whose two
fields share the same composite field type makes `from_type` emit two
entries with the same type name (`point2d`), so the emitter's output is
not duplicate-free. -/
theorem claim_C1_counterexample :
    (fromType pairPg).map ObjectAndCreateSql.name = ["point2d", "point2d", "pair"] ∧
    ¬ ((fromType pairPg).map ObjectAndCreateSql.name).Nodup := by
  exact ⟨by decide, by decide⟩

/-- C3: evaluation of the code at the failing inputs. A column built with
`unique()` (and not nullable) reports `is_unique() = false` even though
its uniqueness flag is `true`, and a column built with `nullable()` (and
not unique) reports `is_unique() = true` even though its uniqueness flag
is `false`: `is_unique()` returns the `nullable` flag, contradicting the
claim (and the spec, which calls this a latent defect). -/
theorem claim_C3_code_eval :
    (((PgColumnBuilder.new "c" int2Pg).withUnique.finish).isUnique = false ∧
      ((PgColumnBuilder.new "c" int2Pg).withUnique.finish).unique = true) ∧
    (((PgColumnBuilder.new "d" int2Pg).withNullable.finish).isUnique = true ∧
      ((PgColumnBuilder.new "d" int2Pg).withNullable.finish).unique = false) :=
  ⟨⟨rfl, rfl⟩, ⟨rfl, rfl⟩⟩

section JoinLemmas

theorem data_ne_nil_left (a b : String) (ha : a.data ≠ []) : (a ++ b).data ≠ [] := by
  rw [str_data_append]
  exact fun h => ha (List.append_eq_nil.mp h).1

theorem checkDisplay_data_ne_nil (c : CheckConstraint) : (c.display).data ≠ [] :=
  data_ne_nil_left _ _ (data_ne_nil_left _ _ (data_ne_nil_left _ _
    (data_ne_nil_left _ _ (by decide))))

theorem joinSep_cons_ne_empty (sep x : String) (xs : List String) (hx : x.data ≠ []) :
    joinSep sep (x :: xs) ≠ "" := by
  cases xs with
  | nil =>
    show x ≠ ""
    intro h
    exact hx (by rw [h])
  | cons y ys =>
    show x ++ sep ++ joinSep sep (y :: ys) ≠ ""
    intro h
    have hd := congrArg String.data h
    rw [str_data_append, str_data_append,
      show ("" : String).data = [] from rfl] at hd
    exact hx (List.append_eq_nil.mp (List.append_eq_nil.mp hd).1).1

end JoinLemmas

/-- C6: `create_table_sql` renders all column definitions first and, when
the constraint list is empty, omits the constraint section entirely — the
closing `);` follows the last column definition directly, with no
trailing comma; when constraints are present they are appended after the
columns, behind a single `, `. -/
theorem claim_C6 (name : String) (cols : List PgColumn) (cons : List CheckConstraint) :
    createTableSql name cols cons =
      "CREATE TABLE IF NOT EXISTS " ++ name ++ " (" ++
        joinSep ", " (cols.map PgColumn.display) ++
        (if cons.isEmpty then ""
          else ", " ++ joinSep "," (cons.map CheckConstraint.display)) ++
        ");" := by
  cases cons with
  | nil => simp [createTableSql, joinSep]
  | cons c cs =>
    have hne : joinSep "," (CheckConstraint.display c :: cs.map CheckConstraint.display) ≠ "" :=
      joinSep_cons_ne_empty _ _ _ (checkDisplay_data_ne_nil c)
    simp [createTableSql, hne, str_append_assoc]

/-- C5: amended. For every table, `insert_many_sql` applied to an empty
row slice succeeds and returns the statement
`INSERT INTO <name> (<column names>) VALUES ;` — a statement with an
empty `VALUES` list, not the empty string claimed (and not an error). -/
theorem claim_C5_amended (t : OldTable) :
    insertManySql t [] = .ok (.ok ("INSERT INTO " ++ t.name ++ " (" ++
      joinSep ", " (t.columns.map OldColumn.name) ++ ") VALUES ;")) := by
  simp [insertManySql, collectRows, joinSep, str_append_assoc,
    show (") VALUES " ++ ";" : String) = ") VALUES ;" from rfl]

/-- C5: counterexample to the claim as stated, at the `buys` table of the
repository's tests: with zero rows the builder returns a non-empty
(malformed) `INSERT` statement, not the empty string. -/
theorem claim_C5_counterexample :
    insertManySql buysOld [] =
      .ok (.ok "INSERT INTO buys (buy_id, customer_id, has_discount, total_price, details) VALUES ;") ∧
    ("INSERT INTO buys (buy_id, customer_id, has_discount, total_price, details) VALUES ;" : String) ≠ "" :=
  ⟨rfl, by decide⟩

/-- C2: amended. `escape_val` is not total: escaping any value against the
`Date` or `Json` kinds aborts (their arms are `todo!()`), and escaping a
Composite value that decomposes successfully but whose field value fails
against its declared field type aborts as well (the failure surfaces as a
`fmt::Error` inside a `format!` call, which panics) — rather than
returning `None` as claimed; for every other scalar kind (`Boolean`, the
integers, `Uuid`, `Float`, `Double`, `Char`, `VarChar`, `String`)
`escape_val` is total: it returns `Some` or `None` and never aborts. -/
theorem claim_C2_amended :
    (∀ v, escapeVal .Date v = .abort) ∧
    (∀ v, escapeVal .Json v = .abort) ∧
    (escapeVal (.CustomStruct "s" [("a", .VarChar (some 2))]) (.vTuple [.vString "abc"]) = .abort) ∧
    (∀ v, escapeVal .Boolean v ≠ .abort) ∧
    (∀ v, escapeVal .Int16 v ≠ .abort) ∧
    (∀ v, escapeVal .Int32 v ≠ .abort) ∧
    (∀ v, escapeVal .Int64 v ≠ .abort) ∧
    (∀ v, escapeVal .Uuid v ≠ .abort) ∧
    (∀ v, escapeVal .Float v ≠ .abort) ∧
    (∀ v, escapeVal .Double v ≠ .abort) ∧
    (∀ sz v, escapeVal (.Char sz) v ≠ .abort) ∧
    (∀ sz v, escapeVal (.VarChar sz) v ≠ .abort) ∧
    (∀ v, escapeVal .Str v ≠ .abort) := by
  refine ⟨fun v => rfl, fun v => rfl, rfl, ?_, ?_, ?_, ?_, ?_, ?_, ?_, ?_, ?_, ?_⟩
  all_goals intros
  all_goals first
    | (simp only [escapeVal]; split <;> simp)
    | simp [escapeVal]

/-- C2: counterexample to the claim as stated. Escaping a value against
`Date` (and `Json`) aborts instead of returning a value-level `None`, and
so does escaping a Composite value that decomposes successfully but whose
field value violates its declared field type. -/
theorem claim_C2_counterexample :
    (escapeVal .Date (.vBool true) = .abort ∧
      escapeVal .Date (.vBool true) ≠ .ok none) ∧
    escapeVal .Json (.vBool true) = .abort ∧
    (escapeVal (.CustomStruct "s" [("a", .VarChar (some 2))]) (.vTuple [.vString "abc"]) = .abort ∧
      escapeVal (.CustomStruct "s" [("a", .VarChar (some 2))]) (.vTuple [.vString "abc"]) ≠ .ok none) :=
  ⟨⟨rfl, by decide⟩, rfl, ⟨rfl, by decide⟩⟩

/-- C7: for bounded `VarChar`, escaping a string value fails exactly when
the string's length exceeds the declared bound, and otherwise yields the
single-quoted string; an unbounded `VarChar` accepts any string. -/
theorem claim_C7 (n : Nat) (s : String) :
    escapeVal (.VarChar (some n)) (.vString s) =
      .ok (if n < s.utf8ByteSize then none else some (quoted s)) ∧
    escapeVal (.VarChar none) (.vString s) = .ok (some (quoted s)) := by
  constructor
  · simp [escapeVal, dString]
  · simp [escapeVal, dString]

/-- C8: a Composite value with ordered field values `[5, 8]` escaped
against the composite `point2d` with fields `x : Int16, y : Int16` yields
exactly `ROW(5, 8)::point2d`; in general, whenever the value decomposes
and the field values escape (recursively, in field order) to `items`, the
result is the items joined with a comma-space and wrapped as
`ROW(..)::<typeName>`. -/
theorem claim_C8 :
    escapeVal (.CustomStruct "point2d" [("x", .Int16), ("y", .Int16)])
      (.vTuple [.vI16 5, .vI16 8]) = .ok (some "ROW(5, 8)::point2d") ∧
    (∀ (n : String) (fs : List (String × DbType)) (v : Value) (vs : List Value)
      (items : List String),
      structAsVec v = some vs → escapeFields fs vs = .ok items →
      escapeVal (.CustomStruct n fs) v =
        .ok (some ("ROW(" ++ joinSep ", " items ++ ")::" ++ n))) := by
  refine ⟨rfl, ?_⟩
  intro n fs v vs items hdec hesc
  simp [escapeVal, hdec, hesc]

/-- C8: witness for the general part of the theorem, at the `with_label`
composite of the repository's tests. -/
theorem claim_C8_witness :
    structAsVec (.vTuple [.vI16 0, .vString "foo-bar"]) = some [.vI16 0, .vString "foo-bar"] ∧
    escapeFields [("val", .Int16), ("label", .VarChar none)] [.vI16 0, .vString "foo-bar"] =
      .ok ["0", quoted "foo-bar"] ∧
    escapeVal (.CustomStruct "with_label" [("val", .Int16), ("label", .VarChar none)])
      (.vTuple [.vI16 0, .vString "foo-bar"]) =
      .ok (some ("ROW(0, " ++ quoted "foo-bar" ++ ")::with_label")) := by
  refine ⟨rfl, rfl, ?_⟩
  exact claim_C8.2 "with_label" [("val", .Int16), ("label", .VarChar none)]
    (.vTuple [.vI16 0, .vString "foo-bar"]) [.vI16 0, .vString "foo-bar"]
    ["0", quoted "foo-bar"] rfl rfl

/-- C9: a `Char` type with no declared length behaves as length one: a
single `char` value is accepted and rendered single-quoted, and a
`String` value is rejected exactly when its length exceeds one. -/
theorem claim_C9 :
    (∀ c : Char, escapeVal (.Char none) (.vChar c) =
      .ok (some (quoted (String.singleton c)))) ∧
    (∀ s : String, escapeVal (.Char none) (.vString s) =
      .ok (if 1 < s.utf8ByteSize then none else some (quoted s))) := by
  constructor
  · intro c; rfl
  · intro s; simp [escapeVal, dChar, dString]

/-- C10: for `Char` and `VarChar` with a declared maximum length,
`escape_nullable_val` applied to an absent value always succeeds and
returns `NULL`: the length check treats the absent value as length zero,
which never exceeds the (natural-number) bound. -/
theorem claim_C10 (n : Nat) :
    escapeNullable (.Char (some n)) (.vNullable .string none) = .ok (some "NULL") ∧
    escapeNullable (.VarChar (some n)) (.vNullable .string none) = .ok (some "NULL") := by
  constructor
  · by_cases hn : n = 1 <;>
      simp [escapeNullable, escapeVal, nullableSecond, dChar, dString, dNul, fmtOpt, hn]
  · simp [escapeNullable, escapeVal, nullableSecond, dString, dNul, fmtOpt]

section NeverNullLemmas

theorem nulSecond_map_ne (k : HostKind) (d : Value → Option α) (f : α → String)
    (hf : ∀ x, f x ≠ "NULL") (v : Value) (hv : v.isAbsent = false) :
    EvalRes.ok ((dNul k d v).map (fmtOpt f)) ≠ .ok (some "NULL") := by
  cases v
  case vNullable k2 inner =>
    cases inner with
    | none => simp [Value.isAbsent] at hv
    | some w =>
      simp only [dNul]
      split
      · cases hdw : d w with
        | none => simp [hdw]
        | some x => simp [hdw, fmtOpt, hf x]
      · simp
  all_goals simp [dNul]

theorem escN_map_ne (t : DbType) (d : Value → Option α) (f : α → String)
    (hf : ∀ x, f x ≠ "NULL") (k : HostKind)
    (h1 : ∀ v, escapeVal t v = .ok ((d v).map f))
    (h2 : ∀ v, nullableSecond t v = .ok ((dNul k d v).map (fmtOpt f)))
    (v : Value) (hv : v.isAbsent = false) :
    escapeNullable t v ≠ .ok (some "NULL") := by
  cases hd : d v with
  | some x =>
    have hstep : escapeNullable t v = .ok (some (f x)) := by
      simp [escapeNullable, h1 v, hd]
    rw [hstep]
    simp [hf x]
  | none =>
    have hstep : escapeNullable t v = nullableSecond t v := by
      simp [escapeNullable, h1 v, hd]
    rw [hstep, h2 v]
    exact nulSecond_map_ne k d f hf v hv

theorem dChar_vNullable (k : HostKind) (o : Option Value) :
    dChar (.vNullable k o) = none := rfl

theorem dString_vNullable (k : HostKind) (o : Option Value) :
    dString (.vNullable k o) = none := rfl

theorem escN_char_ne (sz : Option Nat) (v : Value) (hv : v.isAbsent = false) :
    escapeNullable (.Char sz) v ≠ .ok (some "NULL") := by
  cases v
  case vChar c =>
    by_cases h1 : sz.getD 1 = 1 <;>
      simp [escapeNullable, escapeVal, nullableSecond, dChar, dString, dNul, h1]
  case vString s =>
    by_cases hlen : sz.getD 1 < s.utf8ByteSize <;>
      simp [escapeNullable, escapeVal, nullableSecond, dChar, dString, dNul, hlen]
  case vNullable k2 inner =>
    cases inner with
    | none => simp [Value.isAbsent] at hv
    | some w =>
      by_cases h1 : sz.getD 1 = 1
      · by_cases hk : k2 = HostKind.char
        · subst hk
          cases hdw : dChar w with
          | some c =>
            simp [escapeNullable, escapeVal, nullableSecond, dNul, dChar_vNullable,
              dString_vNullable, h1, hdw, fmtOpt]
          | none =>
            simp [escapeNullable, escapeVal, nullableSecond, dNul, dChar_vNullable,
              dString_vNullable, h1, hdw]
        · by_cases hks : k2 = HostKind.string
          · subst hks
            cases hdw : dString w with
            | none =>
              simp [escapeNullable, escapeVal, nullableSecond, dNul, dChar_vNullable,
                dString_vNullable, h1, hdw]
            | some s =>
              by_cases hlen : sz.getD 1 < s.utf8ByteSize <;>
                simp [escapeNullable, escapeVal, nullableSecond, dNul, dChar_vNullable,
                  dString_vNullable, h1, hdw, hlen, fmtOpt]
          · simp [escapeNullable, escapeVal, nullableSecond, dNul, dChar_vNullable,
              dString_vNullable, h1, hk, hks]
      · by_cases hks : k2 = HostKind.string
        · subst hks
          cases hdw : dString w with
          | none =>
            simp [escapeNullable, escapeVal, nullableSecond, dNul, dChar_vNullable,
              dString_vNullable, h1, hdw]
          | some s =>
            by_cases hlen : sz.getD 1 < s.utf8ByteSize <;>
              simp [escapeNullable, escapeVal, nullableSecond, dNul, dChar_vNullable,
                dString_vNullable, h1, hdw, hlen, fmtOpt]
        · simp [escapeNullable, escapeVal, nullableSecond, dNul, dChar_vNullable,
            dString_vNullable, h1, hks]
  all_goals
    simp [escapeNullable, escapeVal, nullableSecond, dChar, dString, dNul]

theorem escN_varchar_ne (sz : Option Nat) (v : Value) (hv : v.isAbsent = false) :
    escapeNullable (.VarChar sz) v ≠ .ok (some "NULL") := by
  cases v
  case vString s =>
    cases sz with
    | none => simp [escapeNullable, escapeVal, nullableSecond, dString, dNul]
    | some n =>
      by_cases hlen : n < s.utf8ByteSize <;>
        simp [escapeNullable, escapeVal, nullableSecond, dString, dNul, hlen]
  case vNullable k2 inner =>
    cases inner with
    | none => simp [Value.isAbsent] at hv
    | some w =>
      by_cases hks : k2 = HostKind.string
      · subst hks
        cases hdw : dString w with
        | none =>
          simp [escapeNullable, escapeVal, nullableSecond, dString_vNullable, dNul, hdw]
        | some s =>
          cases sz with
          | none =>
            simp [escapeNullable, escapeVal, nullableSecond, dString_vNullable, dNul,
              hdw, fmtOpt]
          | some n =>
            by_cases hlen : n < s.utf8ByteSize <;>
              simp [escapeNullable, escapeVal, nullableSecond, dString_vNullable, dNul,
                hdw, hlen, fmtOpt]
      · simp [escapeNullable, escapeVal, nullableSecond, dString_vNullable, dNul, hks]
  all_goals simp [escapeNullable, escapeVal, nullableSecond, dString, dNul]

end NeverNullLemmas

/-- C4: amended. Escaping through the nullable path: (1) for every scalar
type, escaping a present (non-absent) value never returns the string
`NULL`; (2) escaping an absent value (`Nullable::Null` of the scalar's
host representation) returns exactly `NULL` for every scalar type other
than `Date` and `Json` — those two abort (`todo!()`) before the nullable
branch is reached, so the claim's `always` does not extend to them. -/
theorem claim_C4_amended (t : DbType) (ht : t.isScalar = true) :
    (∀ v : Value, v.isAbsent = false → escapeNullable t v ≠ .ok (some "NULL")) ∧
    (t ≠ .Date → t ≠ .Json →
      escapeNullable t (.vNullable (scalarHost t) none) = .ok (some "NULL")) := by
  cases t with
  | Boolean =>
    exact ⟨fun v hv => escN_map_ne .Boolean dBool fmtBool fmtBool_ne_NULL .bool
      (fun v => rfl) (fun v => rfl) v hv, fun _ _ => rfl⟩
  | Int16 =>
    exact ⟨fun v hv => escN_map_ne .Int16 dI16 intDisplay intDisplay_ne_NULL .i16
      (fun v => rfl) (fun v => rfl) v hv, fun _ _ => rfl⟩
  | Int32 =>
    exact ⟨fun v hv => escN_map_ne .Int32 dI32 intDisplay intDisplay_ne_NULL .i32
      (fun v => rfl) (fun v => rfl) v hv, fun _ _ => rfl⟩
  | Int64 =>
    exact ⟨fun v hv => escN_map_ne .Int64 dI64 intDisplay intDisplay_ne_NULL .i64
      (fun v => rfl) (fun v => rfl) v hv, fun _ _ => rfl⟩
  | Uuid =>
    exact ⟨fun v hv => escN_map_ne .Uuid dUuid quoted quoted_ne_NULL .uuid
      (fun v => rfl) (fun v => rfl) v hv, fun _ _ => rfl⟩
  | Float =>
    exact ⟨fun v hv => escN_map_ne .Float dFloat FloatLit.display floatLit_display_ne_NULL
      .float32 (fun v => rfl) (fun v => rfl) v hv, fun _ _ => rfl⟩
  | Double =>
    exact ⟨fun v hv => escN_map_ne .Double dDouble FloatLit.display floatLit_display_ne_NULL
      .float64 (fun v => rfl) (fun v => rfl) v hv, fun _ _ => rfl⟩
  | Date =>
    refine ⟨?_, fun hd _ => absurd rfl hd⟩
    intro v hv
    simp [escapeNullable, escapeVal]
  | Json =>
    refine ⟨?_, fun _ hj => absurd rfl hj⟩
    intro v hv
    simp [escapeNullable, escapeVal]
  | Char sz =>
    refine ⟨escN_char_ne sz, fun _ _ => ?_⟩
    by_cases h1 : sz.getD 1 = 1 <;>
      simp [escapeNullable, escapeVal, nullableSecond, dChar, dString, dNul, fmtOpt,
        scalarHost, h1]
  | VarChar sz =>
    refine ⟨escN_varchar_ne sz, fun _ _ => ?_⟩
    cases sz with
    | none => rfl
    | some n =>
      simp [escapeNullable, escapeVal, nullableSecond, dString, dNul, fmtOpt, scalarHost]
  | Str =>
    exact ⟨fun v hv => escN_map_ne .Str dString quoted quoted_ne_NULL .string
      (fun v => rfl) (fun v => rfl) v hv, fun _ _ => rfl⟩
  | CustomStruct n fs => simp [DbType.isScalar] at ht
  | Array e => simp [DbType.isScalar] at ht

/-- C4: witness for the amended theorem, at `Int16`: a present value is
never rendered as `NULL` and its typed absent value renders exactly as
`NULL`. -/
theorem claim_C4_witness :
    DbType.Int16.isScalar = true ∧
    (Value.vI16 5).isAbsent = false ∧
    escapeNullable .Int16 (.vI16 5) ≠ .ok (some "NULL") ∧
    escapeNullable .Int16 (.vNullable (scalarHost .Int16) none) = .ok (some "NULL") := by
  refine ⟨rfl, rfl, ?_, ?_⟩
  · exact (claim_C4_amended .Int16 rfl).1 (.vI16 5) rfl
  · exact (claim_C4_amended .Int16 rfl).2 (fun h => DbType.noConfusion h)
      (fun h => DbType.noConfusion h)

/-- C4: counterexample to the claim as stated. `Date` is a scalar kind
and the value is absent, yet escaping it through the nullable path aborts
(`todo!()`) instead of returning `NULL`. -/
theorem claim_C4_counterexample :
    DbType.Date.isScalar = true ∧
    (Value.vNullable .string none).isAbsent = true ∧
    escapeNullable .Date (.vNullable .string none) = .abort ∧
    escapeNullable .Date (.vNullable .string none) ≠ .ok (some "NULL") :=
  ⟨rfl, rfl, rfl, by decide⟩

end PgHelper

